import Mathlib

/-!
Verification of the task descriptor normalization and validation pipeline of
DADK (`dadk-user/src/parser/task.rs`).  The Rust types and functions are
embedded shallowly: `String` stays `String`, `Vec<T>` becomes `List T`,
`Option<T>` becomes `Option T`, `Result<(), String>` becomes
`Except String Unit`, and `PathBuf` is modelled as a `String` with Unix
path-absoluteness (a path is absolute iff it starts with `/`).
-/

namespace Dadk

/-! ## String primitives: trim, replace, upper-case -/

/-- Whitespace test used by `str::trim` (the ASCII subset of the Unicode
white-space characters; the repository only ever trims ASCII whitespace). -/
def isWS (c : Char) : Bool :=
  c = ' ' || c = '\t' || c = '\n' || c = '\r' || c = '\x0b' || c = '\x0c'

/-- `str::trim` on a character list: drop whitespace from both ends. -/
def trimChars (l : List Char) : List Char :=
  (l.dropWhile isWS).rdropWhile isWS

/-- `str::trim().to_string()` -/
def strTrim (s : String) : String :=
  String.mk (trimChars s.data)

/-- One step of `str::replace`, with explicit fuel so that the definition is
structurally recursive (the fuel is always instantiated with the length of
the list, which suffices for a non-empty pattern). At each position, if the
pattern is a prefix, emit the replacement and continue after the match;
otherwise keep the character. Matches are found left to right and are not
re-scanned. -/
def replaceFuel (pat rep : List Char) : Nat → List Char → List Char
  | 0, s => s
  | _ + 1, [] => []
  | fuel + 1, c :: rest =>
    if pat.isPrefixOf (c :: rest) then
      rep ++ replaceFuel pat rep fuel ((c :: rest).drop pat.length)
    else
      c :: replaceFuel pat rep fuel rest

/-- `String::replace(pat, rep)` (for the non-empty patterns the repository
uses). -/
def strReplace (s pat rep : String) : String :=
  String.mk (replaceFuel pat.data rep.data s.data.length s.data)

/-- `str::to_ascii_uppercase`: `Char.toUpper` maps exactly the ASCII letters
`a`..`z` to `A`..`Z`, like Rust's `to_ascii_uppercase`. -/
def strUpper (s : String) : String :=
  String.mk (s.data.map Char.toUpper)

/-! ## External acquisition descriptors

The descriptors `GitSource`, `LocalSource` and `ArchiveSource` live in
`crate::executor::source`, outside this core.  Modelled from the spec:
"Each variant wraps an externally-defined acquisition descriptor; this core
only forwards `validate`/`trim` calls to it" — the data fields are the
strategy parameters the converter stores (source path/url, branch,
revision), and the verdict of the external `validate` is recorded
abstractly in a boolean field `valid`, since its semantics are out of
scope.  `trim` normalizes the free-text fields; the local path is a
`PathBuf`, which the repository never trims. -/

/-- Modelled from the spec: git acquisition descriptor (url, optional
branch and revision) plus the abstract verdict of its external validate. -/
structure GitSource where
  url : String
  branch : Option String
  revision : Option String
  valid : Bool
deriving DecidableEq, Repr

/-- `GitSource::new(url, branch, revision)`; a freshly converted descriptor
carries its external validity verdict unconstrained, recorded as `true`
here only because conversion itself performs no validation. -/
def GitSource.new (url : String) (branch revision : Option String) : GitSource :=
  { url := url, branch := branch, revision := revision, valid := true }

/-- Modelled from the spec: local-directory acquisition descriptor. -/
structure LocalSource where
  path : String
  valid : Bool
deriving DecidableEq, Repr

def LocalSource.new (path : String) : LocalSource :=
  { path := path, valid := true }

/-- Modelled from the spec: online-archive acquisition descriptor. -/
structure ArchiveSource where
  url : String
  valid : Bool
deriving DecidableEq, Repr

def ArchiveSource.new (url : String) : ArchiveSource :=
  { url := url, valid := true }

/-- Modelled from the spec: the external validate of a git descriptor,
abstracted by its verdict. -/
def GitSource.validate (s : GitSource) : Except String Unit :=
  if s.valid then .ok () else .error "git source invalid"

/-- Modelled from the spec: external trim of the descriptor's free-text
fields. -/
def GitSource.trim (s : GitSource) : GitSource :=
  { s with
    url := strTrim s.url
    branch := s.branch.map strTrim
    revision := s.revision.map strTrim }

/-- Modelled from the spec: the external validate of a local descriptor.
The caller passes an expectation flag (`Some(false)` from `CodeSource`,
`None` from `PrebuiltSource`), forwarded to the external module and
ignored by this abstraction. -/
def LocalSource.validate (s : LocalSource) (_expect_file : Option Bool) :
    Except String Unit :=
  if s.valid then .ok () else .error "local source invalid"

/-- Modelled from the spec: the local path is a `PathBuf`, not free text,
so trim leaves it unchanged. -/
def LocalSource.trim (s : LocalSource) : LocalSource := s

/-- Modelled from the spec: the external validate of an archive
descriptor, abstracted by its verdict. -/
def ArchiveSource.validate (s : ArchiveSource) : Except String Unit :=
  if s.valid then .ok () else .error "archive source invalid"

/-- Modelled from the spec: external trim of the descriptor's free-text
fields. -/
def ArchiveSource.trim (s : ArchiveSource) : ArchiveSource :=
  { s with url := strTrim s.url }

/-! ## The parser data model (`task.rs`) -/

/-- `CodeSource`: where to fetch the source code of a `BuildFromSource`
task. -/
inductive CodeSource where
  | Git (source : GitSource)
  | Local (source : LocalSource)
  | Archive (source : ArchiveSource)
deriving DecidableEq, Repr

/-- `PrebuiltSource`: where to fetch the artifact of an
`InstallFromPrebuilt` task. -/
inductive PrebuiltSource where
  | Archive (source : ArchiveSource)
  | Local (source : LocalSource)
deriving DecidableEq, Repr

/-- `TaskType` -/
inductive TaskType where
  | BuildFromSource (source : CodeSource)
  | InstallFromPrebuilt (source : PrebuiltSource)
deriving DecidableEq, Repr

/-- Modelled from the spec: the target processor architecture
(`dadk_config::common::target_arch::TargetArch`, outside this core);
`x86_64` is the fixed default named by the spec, `riscv64` the other
recognized architecture of the project. -/
inductive TargetArch where
  | x86_64
  | riscv64
deriving DecidableEq, Repr

/-- Modelled from the spec: `TargetArch::try_from(&str)` recognizes
exactly the architecture names; everything else is an error. -/
def TargetArch.tryFrom (s : String) : Option TargetArch :=
  if s = "x86_64" then some .x86_64
  else if s = "riscv64" then some .riscv64
  else none

/-- `BuildConfig` -/
structure BuildConfig where
  build_command : Option String
deriving DecidableEq, Repr

/-- `InstallConfig`; `in_dragonos_path` is a `PathBuf`, modelled as a
string that is absolute iff it starts with `/` (Unix). -/
structure InstallConfig where
  in_dragonos_path : Option String
deriving DecidableEq, Repr

/-- `CleanConfig` -/
structure CleanConfig where
  clean_command : Option String
deriving DecidableEq, Repr

/-- `Dependency` -/
structure Dependency where
  name : String
  version : String
deriving DecidableEq, Repr

/-- `TaskEnv` -/
structure TaskEnv where
  key : String
  value : String
deriving DecidableEq, Repr

/-- `DADKTask`: the aggregate task descriptor. -/
structure DADKTask where
  name : String
  version : String
  description : String
  rust_target : Option String
  task_type : TaskType
  depends : List Dependency
  build : BuildConfig
  install : InstallConfig
  clean : CleanConfig
  envs : Option (List TaskEnv)
  build_once : Bool
  install_once : Bool
  target_arch : List TargetArch
deriving DecidableEq, Repr

/-! ## Operations of the parser core -/

/-- Sequencing of fallible checks: the meaning of Rust's `?` between two
`Result<(), String>` computations. -/
def andThen (a b : Except String Unit) : Except String Unit :=
  match a with
  | .ok _ => b
  | .error e => .error e

/-- A `for x in list { x.validate()? }` loop. -/
def validateAll {α : Type} (f : α → Except String Unit) : List α → Except String Unit
  | [] => .ok ()
  | x :: xs => andThen (f x) (validateAll f xs)

/-- `CodeSource::validate` -/
def CodeSource.validate : CodeSource → Except String Unit
  | .Git source => source.validate
  | .Local source => source.validate (some false)
  | .Archive source => source.validate

/-- `CodeSource::trim` -/
def CodeSource.trim : CodeSource → CodeSource
  | .Git source => .Git source.trim
  | .Local source => .Local source.trim
  | .Archive source => .Archive source.trim

/-- `PrebuiltSource::validate` -/
def PrebuiltSource.validate : PrebuiltSource → Except String Unit
  | .Archive source => source.validate
  | .Local source => source.validate none

/-- `PrebuiltSource::trim` -/
def PrebuiltSource.trim : PrebuiltSource → PrebuiltSource
  | .Archive source => .Archive source.trim
  | .Local source => .Local source.trim

/-- `TaskType::validate` (written in the source with `&mut self`, but it
never mutates; embedded read-only). -/
def TaskType.validate : TaskType → Except String Unit
  | .BuildFromSource source => source.validate
  | .InstallFromPrebuilt source => source.validate

/-- `TaskType::trim` -/
def TaskType.trim : TaskType → TaskType
  | .BuildFromSource source => .BuildFromSource source.trim
  | .InstallFromPrebuilt source => .InstallFromPrebuilt source.trim

/-- `BuildConfig::validate` -/
def BuildConfig.validate (_c : BuildConfig) : Except String Unit := .ok ()

/-- `BuildConfig::trim` -/
def BuildConfig.trim (c : BuildConfig) : BuildConfig :=
  { c with build_command := c.build_command.map strTrim }

/-- `Path::is_relative` on Unix: not starting with `/`. -/
def pathIsRelative (p : String) : Bool := !(p.startsWith "/")

/-- `InstallConfig::validate` -/
def InstallConfig.validate (c : InstallConfig) : Except String Unit :=
  match c.in_dragonos_path with
  | none => .ok ()
  | some p =>
    if pathIsRelative p then
      .error "InstallConfig: in_dragonos_path should be an Absolute path"
    else .ok ()

/-- `InstallConfig::trim` (a no-op in the source). -/
def InstallConfig.trim (c : InstallConfig) : InstallConfig := c

/-- `CleanConfig::validate` -/
def CleanConfig.validate (_c : CleanConfig) : Except String Unit := .ok ()

/-- `CleanConfig::trim` -/
def CleanConfig.trim (c : CleanConfig) : CleanConfig :=
  { c with clean_command := c.clean_command.map strTrim }

/-- `Dependency::validate` -/
def Dependency.validate (d : Dependency) : Except String Unit :=
  if d.name = "" then .error "name is empty"
  else if d.version = "" then .error "version is empty"
  else .ok ()

/-- `Dependency::trim` -/
def Dependency.trim (d : Dependency) : Dependency :=
  { name := strTrim d.name, version := strTrim d.version }

/-- `Dependency::name_version`: plain `format!("{}-{}", name, version)`. -/
def Dependency.name_version (d : Dependency) : String :=
  d.name ++ "-" ++ d.version

/-- `TaskEnv::validate` -/
def TaskEnv.validate (e : TaskEnv) : Except String Unit :=
  if e.key = "" then .error "Env: key is empty" else .ok ()

/-- `TaskEnv::trim` -/
def TaskEnv.trim (e : TaskEnv) : TaskEnv :=
  { key := strTrim e.key, value := strTrim e.value }

/-- `NAME_VERSION_REPLACE_TABLE` -/
def NAME_VERSION_REPLACE_TABLE : List (String × String) :=
  [(" ", "_"), ("\t", "_"), ("-", "_"), (".", "_"), ("+", "_"), ("*", "_")]

/-- The replacement loop shared by `name_version` and
`name_version_uppercase`: fold the table over the string. -/
def applyReplaceTable (s : String) : String :=
  NAME_VERSION_REPLACE_TABLE.foldl (fun acc pr => strReplace acc pr.1 pr.2) s

/-- `DADKTask::validate_target_arch` -/
def DADKTask.validate_target_arch (t : DADKTask) : Except String Unit :=
  if t.target_arch.isEmpty then .error "target_arch is empty" else .ok ()

/-- `DADKTask::validate_depends` -/
def DADKTask.validate_depends (t : DADKTask) : Except String Unit :=
  validateAll Dependency.validate t.depends

/-- `DADKTask::validate_envs` -/
def DADKTask.validate_envs (t : DADKTask) : Except String Unit :=
  match t.envs with
  | none => .ok ()
  | some envs => validateAll TaskEnv.validate envs

/-- `DADKTask::validate_build_type`: the cross-field consistency check
between the task kind and the presence of a build command. -/
def DADKTask.validate_build_type (t : DADKTask) : Except String Unit :=
  match t.task_type with
  | .BuildFromSource _ =>
    if t.build.build_command.isNone then .error "build command is empty"
    else .ok ()
  | .InstallFromPrebuilt _ =>
    if t.build.build_command.isSome then
      .error "build command should be empty when install from prebuilt"
    else .ok ()

/-- `DADKTask::validate` -/
def DADKTask.validate (t : DADKTask) : Except String Unit :=
  if t.name = "" then .error "name is empty"
  else if t.version = "" then .error "version is empty"
  else
    andThen t.task_type.validate <|
    andThen t.build.validate <|
    andThen t.validate_build_type <|
    andThen t.install.validate <|
    andThen t.clean.validate <|
    andThen t.validate_depends <|
    andThen t.validate_envs t.validate_target_arch

/-- `DADKTask::trim` -/
def DADKTask.trim (t : DADKTask) : DADKTask :=
  { t with
    name := strTrim t.name
    version := strTrim t.version
    description := strTrim t.description
    rust_target := t.rust_target.map strTrim
    task_type := t.task_type.trim
    build := t.build.trim
    install := t.install.trim
    clean := t.clean.trim
    depends := t.depends.map Dependency.trim
    envs := t.envs.map (List.map TaskEnv.trim) }

/-- `DADKTask::name_version` -/
def DADKTask.name_version (t : DADKTask) : String :=
  applyReplaceTable (t.name ++ "-" ++ t.version)

/-- `DADKTask::name_version_uppercase` -/
def DADKTask.name_version_uppercase (name version : String) : String :=
  applyReplaceTable (strUpper (name ++ "-" ++ version))

/-- `DADKTask::name_version_env` -/
def DADKTask.name_version_env (t : DADKTask) : String :=
  DADKTask.name_version_uppercase t.name t.version

/-- `DADKTask::source_path` -/
def DADKTask.source_path (t : DADKTask) : Option String :=
  match t.task_type with
  | .BuildFromSource cs =>
    match cs with
    | .Local lc => some lc.path
    | _ => none
  | .InstallFromPrebuilt ps =>
    match ps with
    | .Local lc => some lc.path
    | _ => none

/-- `impl PartialEq for DADKTask`, field comparisons in source order. -/
def DADKTask.beq (a b : DADKTask) : Bool :=
  decide (a.name = b.name) && decide (a.version = b.version)
  && decide (a.description = b.description)
  && decide (a.rust_target = b.rust_target)
  && decide (a.build_once = b.build_once)
  && decide (a.install_once = b.install_once)
  && decide (a.target_arch = b.target_arch)
  && decide (a.task_type = b.task_type)
  && decide (a.build = b.build)
  && decide (a.install = b.install)
  && decide (a.clean = b.clean)
  && decide (a.depends = b.depends)
  && decide (a.envs = b.envs)

/-- `DADKTask::default_target_arch`.  Modelled from the spec: the `ARCH`
process environment variable is passed explicitly as `archEnv`, and the
`unwrap()` panic on an unrecognized value is modelled by `none`. -/
def DADKTask.default_target_arch (archEnv : Option String) : Option TargetArch :=
  TargetArch.tryFrom (archEnv.getD "x86_64")

/-- `DADKTask::default_target_arch_vec` -/
def DADKTask.default_target_arch_vec (archEnv : Option String) :
    Option (List TargetArch) :=
  (DADKTask.default_target_arch archEnv).map (fun a => [a])

/-- `DADKTask::new`.  Modelled from the spec for the environment access:
`archEnv` is the `ARCH` override, consulted only when `target_arch` is
absent from the raw input; a `none` result models the fatal panic of
default-architecture resolution. -/
def DADKTask.new (name version description : String)
    (rust_target : Option String) (task_type : TaskType)
    (depends : List Dependency) (build : BuildConfig)
    (install : InstallConfig) (clean : CleanConfig)
    (envs : Option (List TaskEnv)) (build_once install_once : Bool)
    (target_arch : Option (List TargetArch)) (archEnv : Option String) :
    Option DADKTask :=
  match target_arch with
  | some ta =>
    some { name := name, version := version, description := description,
           rust_target := rust_target, task_type := task_type,
           depends := depends, build := build, install := install,
           clean := clean, envs := envs, build_once := build_once,
           install_once := install_once, target_arch := ta }
  | none =>
    (DADKTask.default_target_arch_vec archEnv).map fun ta =>
      { name := name, version := version, description := description,
        rust_target := rust_target, task_type := task_type,
        depends := depends, build := build, install := install,
        clean := clean, envs := envs, build_once := build_once,
        install_once := install_once, target_arch := ta }

/-! ## Raw-to-canonical conversion -/

/-- The raw record (`DADKUserTaskType`, from `parser::config`): string
task kind, string source kind, the strategy fields and the originating
configuration file path. -/
structure DADKUserTaskType where
  task_type : String
  source : String
  source_path : String
  branch : Option String
  revision : Option String
  config_file : String
deriving DecidableEq, Repr

/-- The inner parser error; only the TOML variant (with its custom
message) is reachable from the conversion. -/
inductive InnerParserError where
  | TomlError (msg : String)
deriving DecidableEq, Repr

/-- `ParserError`: an inner error plus the optional originating
configuration file path. -/
structure ParserError where
  config_file : Option String
  error : InnerParserError
deriving DecidableEq, Repr

/-- Modelled from the spec: `DADKUserConfigKey` (from `parser::config`),
restricted to the two closed sets the conversion resolves against,
{BuildFromSource, InstallFromPrebuilt} for task kinds and
{Git, Local, Archive} for source kinds. -/
inductive DADKUserConfigKey where
  | BuildFromSource
  | InstallFromPrebuilt
  | Git
  | Local
  | Archive
deriving DecidableEq, Repr

/-- Modelled from the spec: `TryFrom<&str> for DADKUserConfigKey` resolves
a string against the closed key set; unrecognized strings fail with a
descriptive error (the file path is attached by the caller). -/
def DADKUserConfigKey.tryFrom (s : String) : Except ParserError DADKUserConfigKey :=
  if s = "build_from_source" then .ok .BuildFromSource
  else if s = "install_from_prebuilt" then .ok .InstallFromPrebuilt
  else if s = "git" then .ok .Git
  else if s = "local" then .ok .Local
  else if s = "archive" then .ok .Archive
  else .error { config_file := none,
                error := .TomlError ("Unknown key: " ++ s) }

/-- `TryFrom<DADKUserTaskType> for TaskType` -/
def TaskType.tryFrom (d : DADKUserTaskType) : Except ParserError TaskType :=
  match DADKUserConfigKey.tryFrom d.task_type with
  | .error e => .error { e with config_file := some d.config_file }
  | .ok task_type =>
    match DADKUserConfigKey.tryFrom d.source with
    | .error e => .error { e with config_file := some d.config_file }
    | .ok source =>
      match task_type with
      | .BuildFromSource =>
        match source with
        | .Git =>
          .ok (.BuildFromSource (.Git
            (GitSource.new d.source_path d.branch d.revision)))
        | .Local =>
          .ok (.BuildFromSource (.Local (LocalSource.new d.source_path)))
        | .Archive =>
          .ok (.BuildFromSource (.Archive (ArchiveSource.new d.source_path)))
        | _ =>
          .error { config_file := some d.config_file,
                   error := .TomlError ("Unknown source: " ++ d.source) }
      | .InstallFromPrebuilt =>
        match source with
        | .Local =>
          .ok (.InstallFromPrebuilt (.Local (LocalSource.new d.source_path)))
        | .Archive =>
          .ok (.InstallFromPrebuilt (.Archive
            (ArchiveSource.new d.source_path)))
        | _ =>
          .error { config_file := some d.config_file,
                   error := .TomlError ("Unknown source: " ++ d.source) }
      | _ =>
        .error { config_file := some d.config_file,
                 error := .TomlError ("Unknown task type: " ++ d.task_type) }

/-! ## Shared sample descriptors used by concrete instances -/

/-- A well-formed sample task with the given name and version. -/
def mkTask (n v : String) : DADKTask :=
  { name := n, version := v, description := "", rust_target := none,
    task_type := .BuildFromSource (.Local { path := "/src/foo", valid := true }),
    depends := [], build := { build_command := some "make" },
    install := { in_dragonos_path := none }, clean := { clean_command := none },
    envs := none, build_once := false, install_once := false,
    target_arch := [.x86_64] }

/-- A sample task whose resolved source is a git repository. -/
def mkGitTask (n v : String) : DADKTask :=
  { mkTask n v with
    task_type := .BuildFromSource (.Git
      { url := "https://example.org/r.git", branch := some "main",
        revision := none, valid := true }) }

/-! ## Helper lemmas -/

theorem andThen_ok {a b : Except String Unit} :
    andThen a b = .ok () ↔ a = .ok () ∧ b = .ok () := by
  cases a with
  | ok u => cases u; simp [andThen]
  | error e => simp [andThen]

theorem validateAll_ok {α : Type} (f : α → Except String Unit) (l : List α) :
    validateAll f l = .ok () ↔ ∀ x ∈ l, f x = .ok () := by
  induction l with
  | nil => simp [validateAll]
  | cons x xs ih => simp [validateAll, andThen_ok, ih]

theorem iteOk (b : Bool) (e : String) :
    (if b then (.ok () : Except String Unit) else .error e) = .ok () ↔ b = true := by
  cases b <;> simp

theorem dropWhile_eq_self_append {p : Char → Bool} {x t : List Char}
    (h : (x ++ t).dropWhile p = x ++ t) : x.dropWhile p = x := by
  cases x with
  | nil => rfl
  | cons a xs =>
    have ha : p a = false := by
      by_contra hcon
      rw [Bool.not_eq_false] at hcon
      rw [List.cons_append, List.dropWhile_cons, if_pos hcon] at h
      have hle : ((xs ++ t).dropWhile p).length ≤ (xs ++ t).length := by
        induction (xs ++ t) with
        | nil => simp
        | cons y ys ih =>
          by_cases hy : p y
          · simp only [List.dropWhile_cons, if_pos hy, List.length_cons]
            omega
          · simp [List.dropWhile_cons, hy]
      rw [h] at hle
      simp at hle
    simp [List.dropWhile_cons, ha]

theorem trimChars_noLead (l : List Char) :
    (trimChars l).dropWhile isWS = trimChars l := by
  have h1 : (l.dropWhile isWS).dropWhile isWS = l.dropWhile isWS :=
    List.dropWhile_idempotent isWS l
  obtain ⟨t, ht⟩ := List.rdropWhile_prefix isWS (l.dropWhile isWS)
  rw [← ht] at h1
  exact dropWhile_eq_self_append h1

theorem trimChars_idem (l : List Char) : trimChars (trimChars l) = trimChars l := by
  have h2 := trimChars_noLead l
  unfold trimChars at h2 ⊢
  rw [h2]
  exact List.rdropWhile_idempotent isWS (l.dropWhile isWS)

theorem strTrim_idem (s : String) : strTrim (strTrim s) = strTrim s :=
  congrArg String.mk (trimChars_idem s.data)

theorem optTrim_idem (o : Option String) :
    (o.map strTrim).map strTrim = o.map strTrim := by
  cases o <;> simp [strTrim_idem]

theorem strTrim_comp : strTrim ∘ strTrim = strTrim :=
  funext strTrim_idem


theorem gitSource_trim_idem (s : GitSource) : s.trim.trim = s.trim := by
  simp [GitSource.trim, strTrim_idem, Option.map_map, strTrim_comp]

theorem localSource_trim_idem (s : LocalSource) : s.trim.trim = s.trim := rfl

theorem archiveSource_trim_idem (s : ArchiveSource) : s.trim.trim = s.trim := by
  simp [ArchiveSource.trim, strTrim_idem]

theorem codeSource_trim_idem (s : CodeSource) : s.trim.trim = s.trim := by
  cases s <;> simp [CodeSource.trim, gitSource_trim_idem, localSource_trim_idem,
    archiveSource_trim_idem]

theorem prebuiltSource_trim_idem (s : PrebuiltSource) : s.trim.trim = s.trim := by
  cases s <;> simp [PrebuiltSource.trim, localSource_trim_idem, archiveSource_trim_idem]

theorem taskType_trim_idem (tt : TaskType) : tt.trim.trim = tt.trim := by
  cases tt <;> simp [TaskType.trim, codeSource_trim_idem, prebuiltSource_trim_idem]

theorem buildConfig_trim_idem (c : BuildConfig) : c.trim.trim = c.trim := by
  simp [BuildConfig.trim, strTrim_idem, Option.map_map, strTrim_comp]

theorem cleanConfig_trim_idem (c : CleanConfig) : c.trim.trim = c.trim := by
  simp [CleanConfig.trim, strTrim_idem, Option.map_map, strTrim_comp]

theorem dependency_trim_idem (d : Dependency) : d.trim.trim = d.trim := by
  simp [Dependency.trim, strTrim_idem]

theorem taskEnv_trim_idem (e : TaskEnv) : e.trim.trim = e.trim := by
  simp [TaskEnv.trim, strTrim_idem]

theorem envTrim_comp : TaskEnv.trim ∘ TaskEnv.trim = TaskEnv.trim := by
  funext e
  exact taskEnv_trim_idem e

theorem depTrim_comp : Dependency.trim ∘ Dependency.trim = Dependency.trim := by
  funext d
  exact dependency_trim_idem d

theorem depList_trim_idem (l : List Dependency) :
    (l.map Dependency.trim).map Dependency.trim = l.map Dependency.trim := by
  induction l with
  | nil => rfl
  | cons d ds ih => simp only [List.map_cons, dependency_trim_idem] at ih ⊢; rw [ih]

theorem envList_trim_idem (l : List TaskEnv) :
    (l.map TaskEnv.trim).map TaskEnv.trim = l.map TaskEnv.trim := by
  induction l with
  | nil => rfl
  | cons e es ih => simp only [List.map_cons, taskEnv_trim_idem] at ih ⊢; rw [ih]

theorem envs_trim_idem (o : Option (List TaskEnv)) :
    (o.map (List.map TaskEnv.trim)).map (List.map TaskEnv.trim)
      = o.map (List.map TaskEnv.trim) := by
  cases o with
  | none => rfl
  | some l => exact congrArg some (envList_trim_idem l)

/-- The "task_type internally valid" invariant: the verdict of the wrapped
external acquisition descriptor's validate. -/
def TaskType.internallyValid : TaskType → Bool
  | .BuildFromSource (.Git g) => g.valid
  | .BuildFromSource (.Local l) => l.valid
  | .BuildFromSource (.Archive a) => a.valid
  | .InstallFromPrebuilt (.Local l) => l.valid
  | .InstallFromPrebuilt (.Archive a) => a.valid

theorem taskType_validate_ok (tt : TaskType) :
    tt.validate = .ok () ↔ tt.internallyValid = true := by
  cases tt with
  | BuildFromSource cs =>
    cases cs <;>
      simp [TaskType.validate, CodeSource.validate, TaskType.internallyValid,
        GitSource.validate, LocalSource.validate, ArchiveSource.validate, iteOk]
  | InstallFromPrebuilt ps =>
    cases ps <;>
      simp [TaskType.validate, PrebuiltSource.validate, TaskType.internallyValid,
        LocalSource.validate, ArchiveSource.validate, iteOk]

theorem dadkTask_validate_build_type_ok (t : DADKTask) :
    t.validate_build_type = .ok () ↔
      (match t.task_type with
       | .BuildFromSource _ => t.build.build_command ≠ none
       | .InstallFromPrebuilt _ => t.build.build_command = none) := by
  cases h : t.task_type with
  | BuildFromSource cs =>
    cases hc : t.build.build_command <;>
      simp [DADKTask.validate_build_type, h, hc]
  | InstallFromPrebuilt ps =>
    cases hc : t.build.build_command <;>
      simp [DADKTask.validate_build_type, h, hc]

theorem installConfig_validate_ok (c : InstallConfig) :
    c.validate = .ok () ↔
      ∀ p, c.in_dragonos_path = some p → p.startsWith "/" = true := by
  cases hc : c.in_dragonos_path with
  | none => simp [InstallConfig.validate, hc]
  | some p =>
    cases hs : p.startsWith "/" <;>
      simp [InstallConfig.validate, hc, pathIsRelative, hs]

theorem dependency_validate_ok (d : Dependency) :
    d.validate = .ok () ↔ (d.name ≠ "" ∧ d.version ≠ "") := by
  by_cases h1 : d.name = "" <;> by_cases h2 : d.version = "" <;>
    simp [Dependency.validate, h1, h2]

theorem taskEnv_validate_ok (e : TaskEnv) :
    e.validate = .ok () ↔ e.key ≠ "" := by
  by_cases h : e.key = "" <;> simp [TaskEnv.validate, h]

theorem dadkTask_validate_depends_ok (t : DADKTask) :
    t.validate_depends = .ok () ↔
      ∀ d ∈ t.depends, d.name ≠ "" ∧ d.version ≠ "" := by
  simp [DADKTask.validate_depends, validateAll_ok, dependency_validate_ok]

theorem dadkTask_validate_envs_ok (t : DADKTask) :
    t.validate_envs = .ok () ↔
      ∀ l, t.envs = some l → ∀ e ∈ l, e.key ≠ "" := by
  cases he : t.envs <;>
    simp [DADKTask.validate_envs, he, validateAll_ok, taskEnv_validate_ok]

theorem dadkTask_validate_target_arch_ok (t : DADKTask) :
    t.validate_target_arch = .ok () ↔ t.target_arch ≠ [] := by
  cases h : t.target_arch <;> simp [DADKTask.validate_target_arch, h]

/-- Decomposition of `DADKTask::validate` into the invariant set it
enforces. -/
theorem dadkTask_validate_ok (t : DADKTask) :
    t.validate = .ok () ↔
      (t.name ≠ "" ∧ t.version ≠ "" ∧
       t.task_type.internallyValid = true ∧
       (match t.task_type with
        | .BuildFromSource _ => t.build.build_command ≠ none
        | .InstallFromPrebuilt _ => t.build.build_command = none) ∧
       (∀ p, t.install.in_dragonos_path = some p → p.startsWith "/" = true) ∧
       (∀ d ∈ t.depends, d.name ≠ "" ∧ d.version ≠ "") ∧
       (∀ l, t.envs = some l → ∀ e ∈ l, e.key ≠ "") ∧
       t.target_arch ≠ []) := by
  by_cases h1 : t.name = ""
  · simp [DADKTask.validate, h1]
  · by_cases h2 : t.version = ""
    · simp [DADKTask.validate, h1, h2]
    · simp only [DADKTask.validate, h1, h2, if_false, if_neg]
      simp only [andThen_ok, taskType_validate_ok, BuildConfig.validate,
        dadkTask_validate_build_type_ok, installConfig_validate_ok,
        CleanConfig.validate, dadkTask_validate_depends_ok,
        dadkTask_validate_envs_ok, dadkTask_validate_target_arch_ok]
      simp [h1, h2]

/-- Single-character substitution, the effect of one `replace` pass with a
one-character pattern. -/
def chSub (a b c : Char) : Char := if c = a then b else c

/-- The overall substitution performed by the replacement table: the six
characters space, tab, hyphen, period, plus, asterisk become underscore. -/
def nvSubst (c : Char) : Char :=
  if c = ' ' ∨ c = '\t' ∨ c = '-' ∨ c = '.' ∨ c = '+' ∨ c = '*' then '_' else c

theorem replaceFuel_single (a b : Char) :
    ∀ (fuel : Nat) (l : List Char), l.length ≤ fuel →
      replaceFuel [a] [b] fuel l = l.map (chSub a b) := by
  intro fuel
  induction fuel with
  | zero =>
    intro l hl
    have : l = [] := List.eq_nil_of_length_eq_zero (Nat.le_zero.mp hl)
    subst this
    rfl
  | succ n ih =>
    intro l hl
    cases l with
    | nil => rfl
    | cons c rest =>
      simp only [List.length_cons, Nat.succ_le_succ_iff] at hl
      by_cases hac : c = a
      · subst hac
        simp [replaceFuel, List.isPrefixOf, chSub, ih rest hl]
      · have hne : (a == c) = false := by
          simp [beq_eq_false_iff_ne]
          exact fun h => hac h.symm
        simp [replaceFuel, List.isPrefixOf, hne, chSub, hac, ih rest hl]

theorem strReplace_single (s p r : String) (a b : Char)
    (hp : p.data = [a]) (hr : r.data = [b]) :
    strReplace s p r = String.mk (s.data.map (chSub a b)) := by
  unfold strReplace
  rw [hp, hr]
  exact congrArg String.mk (replaceFuel_single a b s.data.length s.data (le_refl _))

theorem chSub_chain (c : Char) :
    chSub '*' '_' (chSub '+' '_' (chSub '.' '_' (chSub '-' '_'
      (chSub '\t' '_' (chSub ' ' '_' c))))) = nvSubst c := by
  by_cases h1 : c = ' '
  · subst h1; decide
  by_cases h2 : c = '\t'
  · subst h2; decide
  by_cases h3 : c = '-'
  · subst h3; decide
  by_cases h4 : c = '.'
  · subst h4; decide
  by_cases h5 : c = '+'
  · subst h5; decide
  by_cases h6 : c = '*'
  · subst h6; decide
  simp [chSub, nvSubst, h1, h2, h3, h4, h5, h6]

theorem applyReplaceTable_eq (s : String) :
    applyReplaceTable s = String.mk (s.data.map nvSubst) := by
  simp only [applyReplaceTable, NAME_VERSION_REPLACE_TABLE, List.foldl]
  rw [strReplace_single _ _ _ ' ' '_' rfl rfl,
      strReplace_single _ _ _ '\t' '_' rfl rfl,
      strReplace_single _ _ _ '-' '_' rfl rfl,
      strReplace_single _ _ _ '.' '_' rfl rfl,
      strReplace_single _ _ _ '+' '_' rfl rfl,
      strReplace_single _ _ _ '*' '_' rfl rfl]
  simp only [List.map_map]
  refine congrArg String.mk (List.map_congr_left ?_)
  intro c _
  simpa [Function.comp] using chSub_chain c

/-- The string each configuration key resolves from. -/
def DADKUserConfigKey.toStr : DADKUserConfigKey → String
  | .BuildFromSource => "build_from_source"
  | .InstallFromPrebuilt => "install_from_prebuilt"
  | .Git => "git"
  | .Local => "local"
  | .Archive => "archive"

theorem key_ok_iff (s : String) (k : DADKUserConfigKey) :
    DADKUserConfigKey.tryFrom s = .ok k ↔ s = k.toStr := by
  unfold DADKUserConfigKey.tryFrom
  cases k <;> split_ifs <;> simp_all [DADKUserConfigKey.toStr]

/-! ## Claim theorems -/

/-- C2: a BuildFromSource task with no `build_command` always fails
validation; an InstallFromPrebuilt task with a `build_command` always
fails validation; in the other two combinations the cross-field check
`validate_build_type` passes. -/
theorem claim_C2 (t : DADKTask) :
    ((∃ cs, t.task_type = .BuildFromSource cs) →
        t.build.build_command = none → t.validate ≠ .ok ()) ∧
    ((∃ ps, t.task_type = .InstallFromPrebuilt ps) →
        (∃ c, t.build.build_command = some c) → t.validate ≠ .ok ()) ∧
    ((∃ cs c, t.task_type = .BuildFromSource cs ∧
        t.build.build_command = some c) → t.validate_build_type = .ok ()) ∧
    ((∃ ps, t.task_type = .InstallFromPrebuilt ps ∧
        t.build.build_command = none) → t.validate_build_type = .ok ()) := by
  refine ⟨?_, ?_, ?_, ?_⟩
  · rintro ⟨cs, hcs⟩ hnone hok
    obtain ⟨-, -, -, hbt, -⟩ := (dadkTask_validate_ok t).mp hok
    rw [hcs] at hbt
    have hbt' : t.build.build_command ≠ none := hbt
    exact hbt' hnone
  · rintro ⟨ps, hps⟩ ⟨c, hc⟩ hok
    obtain ⟨-, -, -, hbt, -⟩ := (dadkTask_validate_ok t).mp hok
    rw [hps] at hbt
    have hbt' : t.build.build_command = none := hbt
    rw [hc] at hbt'
    exact Option.noConfusion hbt'
  · rintro ⟨cs, c, hcs, hc⟩
    simp [DADKTask.validate_build_type, hcs, hc]
  · rintro ⟨ps, hps, hc⟩
    simp [DADKTask.validate_build_type, hps, hc]

/-- C2 witness: a concrete BuildFromSource task without a build command
fails validation. -/
theorem claim_C2_witness :
    ({ mkTask "app" "1.0" with build := { build_command := none } } :
        DADKTask).validate ≠ .ok () :=
  (claim_C2 _).1 ⟨_, rfl⟩ rfl

/-- C3: `validate` succeeds exactly when all listed invariants hold:
name and version non-empty, task_type internally valid, build-command
presence matching the task kind, install path absolute when present,
every dependency's name and version non-empty, every env key non-empty,
and target_arch non-empty. -/
theorem claim_C3 (t : DADKTask) :
    t.validate = .ok () ↔
      (t.name ≠ "" ∧ t.version ≠ "" ∧
       t.task_type.internallyValid = true ∧
       (match t.task_type with
        | .BuildFromSource _ => t.build.build_command ≠ none
        | .InstallFromPrebuilt _ => t.build.build_command = none) ∧
       (∀ p, t.install.in_dragonos_path = some p → p.startsWith "/" = true) ∧
       (∀ d ∈ t.depends, d.name ≠ "" ∧ d.version ≠ "") ∧
       (∀ l, t.envs = some l → ∀ e ∈ l, e.key ≠ "") ∧
       t.target_arch ≠ []) :=
  dadkTask_validate_ok t

/-- C3 witness: a concrete task satisfying every invariant validates. -/
theorem claim_C3_witness : (mkTask "app" "1.0").validate = .ok () :=
  (claim_C3 (mkTask "app" "1.0")).mpr
    ⟨by decide, by decide, by decide, by simp [mkTask],
     fun p h => Option.noConfusion h, by simp [mkTask],
     fun l h => Option.noConfusion h, by decide⟩

/-- C5: `trim` is idempotent on task descriptors. -/
theorem claim_C5 (t : DADKTask) : t.trim.trim = t.trim := by
  simp [DADKTask.trim, strTrim_idem, strTrim_comp, taskType_trim_idem,
    buildConfig_trim_idem, InstallConfig.trim, cleanConfig_trim_idem,
    depList_trim_idem, envs_trim_idem, optTrim_idem,
    dependency_trim_idem, taskEnv_trim_idem, envTrim_comp, depTrim_comp]

/-- C7: `source_path` yields the local path exactly for Local-sourced
tasks (either kind) and nothing for Git- or Archive-sourced tasks. -/
theorem claim_C7 (t : DADKTask) :
    (∀ l, t.task_type = .BuildFromSource (.Local l) →
        t.source_path = some l.path) ∧
    (∀ l, t.task_type = .InstallFromPrebuilt (.Local l) →
        t.source_path = some l.path) ∧
    ((∀ l, t.task_type ≠ .BuildFromSource (.Local l)) →
      (∀ l, t.task_type ≠ .InstallFromPrebuilt (.Local l)) →
      t.source_path = none) := by
  refine ⟨?_, ?_, ?_⟩
  · intro l h
    simp [DADKTask.source_path, h]
  · intro l h
    simp [DADKTask.source_path, h]
  · intro h1 h2
    unfold DADKTask.source_path
    cases ht : t.task_type with
    | BuildFromSource cs =>
      cases cs with
      | Local lc => exact absurd ht (h1 lc)
      | Git g => rfl
      | Archive a => rfl
    | InstallFromPrebuilt ps =>
      cases ps with
      | Local lc => exact absurd ht (h2 lc)
      | Archive a => rfl

/-- C7 witness: the sample Local-sourced task yields its path, the
sample Git-sourced task yields nothing. -/
theorem claim_C7_witness :
    (mkTask "app" "1.0").source_path = some "/src/foo" ∧
    (mkGitTask "app" "1.0").source_path = none := by
  constructor
  · exact (claim_C7 (mkTask "app" "1.0")).1
      { path := "/src/foo", valid := true } rfl
  · refine (claim_C7 _).2.2 ?_ ?_
    · intro l h
      simp [mkGitTask, mkTask] at h
    · intro l h
      simp [mkGitTask, mkTask] at h

/-- C8: the task equality of the source compares equal exactly when all
thirteen fields are equal. -/
theorem claim_C8 (a b : DADKTask) :
    DADKTask.beq a b = true ↔
      (a.name = b.name ∧ a.version = b.version ∧
       a.description = b.description ∧ a.rust_target = b.rust_target ∧
       a.task_type = b.task_type ∧ a.depends = b.depends ∧
       a.build = b.build ∧ a.install = b.install ∧ a.clean = b.clean ∧
       a.envs = b.envs ∧ a.build_once = b.build_once ∧
       a.install_once = b.install_once ∧ a.target_arch = b.target_arch) := by
  simp only [DADKTask.beq, Bool.and_eq_true, decide_eq_true_eq]
  tauto

theorem strTrim_all_ws (s : String) (h : ∀ c ∈ s.data, isWS c = true) :
    strTrim s = "" := by
  have hd : s.data.dropWhile isWS = [] := by
    rw [List.dropWhile_eq_nil_iff]
    exact h
  simp only [strTrim, trimChars, hd, List.rdropWhile_nil]

/-- C9: `validate` tests only emptiness of name and version, so a
whitespace-only (non-empty) name or version passes those checks; `trim`
empties such a name, after which validation rejects it — the rejection of
whitespace-only identity fields depends on trim preceding validate. -/
theorem claim_C9 (t : DADKTask) (h1 : t.name ≠ "")
    (h2 : ∀ c ∈ t.name.data, isWS c = true)
    (h3 : t.version ≠ "") (_h4 : ∀ c ∈ t.version.data, isWS c = true) :
    decide (t.name = "") = false ∧ decide (t.version = "") = false ∧
    strTrim t.name = "" ∧ t.trim.validate = .error "name is empty" := by
  have hn : strTrim t.name = "" := strTrim_all_ws _ h2
  have hv : t.trim.validate = .error "name is empty" := by
    simp [DADKTask.validate, DADKTask.trim, hn]
  exact ⟨by simp [h1], by simp [h3], hn, hv⟩

/-- C9 witness: a task named by a single blank with tab version. -/
theorem claim_C9_witness :
    decide ((mkTask " " "\t").name = "") = false ∧
    decide ((mkTask " " "\t").version = "") = false ∧
    strTrim (mkTask " " "\t").name = "" ∧
    (mkTask " " "\t").trim.validate = .error "name is empty" :=
  claim_C9 (mkTask " " "\t") (by decide) (by decide) (by decide) (by decide)

/-- C10: `Dependency::name_version` is the plain hyphen concatenation,
keeping the characters that `DADKTask::name_version` substitutes. -/
theorem claim_C10 :
    (∀ d : Dependency, d.name_version = d.name ++ "-" ++ d.version) ∧
    (Dependency.mk "my app" "1.0+x").name_version = "my app-1.0+x" ∧
    (mkTask "my app" "1.0+x").name_version = "my_app_1_0_x" := by
  refine ⟨fun d => rfl, by decide, by decide⟩

/-- C4: `name_version` is the hyphen concatenation with the six
characters space, tab, hyphen, period, plus, asterisk replaced by
underscore; `name_version_env` applies the same substitution plus ASCII
upper-casing; both are total functions of (name, version), with the two
concrete examples of the spec. -/
theorem claim_C4 :
    (∀ t : DADKTask,
      t.name_version =
        String.mk ((t.name ++ "-" ++ t.version).data.map nvSubst) ∧
      t.name_version_env =
        String.mk ((t.name ++ "-" ++ t.version).data.map
          (fun c => nvSubst c.toUpper))) ∧
    (mkTask "My App" "1.0.2").name_version = "My_App_1_0_2" ∧
    (mkTask "my-app" "1.0").name_version_env = "MY_APP_1_0" := by
  refine ⟨fun t => ⟨applyReplaceTable_eq _, ?_⟩, by decide, by decide⟩
  show DADKTask.name_version_uppercase t.name t.version = _
  unfold DADKTask.name_version_uppercase
  rw [applyReplaceTable_eq]
  simp only [strUpper, List.map_map]
  rfl

/-- C6: with no explicit architecture list and no ARCH override the task
gets the single default architecture x86_64; an unrecognized override
makes default-architecture resolution fail fatally (modelled by `none`). -/
theorem claim_C6 :
    (∀ n v d rt tt dep b i c e bo io,
      (DADKTask.new n v d rt tt dep b i c e bo io none none).map
          DADKTask.target_arch = some [TargetArch.x86_64]) ∧
    (∀ s, TargetArch.tryFrom s = none →
      DADKTask.default_target_arch (some s) = none) ∧
    (∀ s, s ≠ "x86_64" → s ≠ "riscv64" →
      ∀ n v d rt tt dep b i c e bo io,
        DADKTask.new n v d rt tt dep b i c e bo io none (some s) = none) ∧
    TargetArch.tryFrom "arm64" = none := by
  refine ⟨?_, ?_, ?_, rfl⟩
  · intro n v d rt tt dep b i c e bo io
    rfl
  · intro s h
    simp [DADKTask.default_target_arch, h]
  · intro s hs1 hs2 n v d rt tt dep b i c e bo io
    simp [DADKTask.new, DADKTask.default_target_arch_vec,
      DADKTask.default_target_arch, TargetArch.tryFrom, hs1, hs2]

/-- C6 witness: concrete instances of the default and of the fatal
branch, for the unrecognized architecture string "arm64". -/
theorem claim_C6_witness :
    (DADKTask.new "a" "1" "" none
        (.BuildFromSource (.Local { path := "/s", valid := true })) []
        { build_command := some "make" } { in_dragonos_path := none }
        { clean_command := none } none false false none none).map
      DADKTask.target_arch = some [TargetArch.x86_64] ∧
    DADKTask.default_target_arch (some "arm64") = none ∧
    DADKTask.new "a" "1" "" none
        (.BuildFromSource (.Local { path := "/s", valid := true })) []
        { build_command := some "make" } { in_dragonos_path := none }
        { clean_command := none } none false false none (some "arm64")
      = none :=
  ⟨claim_C6.1 _ _ _ _ _ _ _ _ _ _ _ _,
   claim_C6.2.1 "arm64" (by decide),
   claim_C6.2.2.1 "arm64" (by decide) (by decide) _ _ _ _ _ _ _ _ _ _ _ _⟩

/-- C1: raw-to-canonical conversion succeeds exactly for the five
compatible task-kind/source-kind crossings, passing the strategy fields
through; the InstallFromPrebuilt × git crossing fails with an error
naming "git" and carrying the configuration file path; any successful
conversion comes from one of the five crossings. -/
theorem claim_C1 :
    (∀ sp br rv cf, TaskType.tryFrom ⟨"build_from_source", "git", sp, br, rv, cf⟩
        = .ok (.BuildFromSource (.Git (GitSource.new sp br rv)))) ∧
    (∀ sp br rv cf, TaskType.tryFrom ⟨"build_from_source", "local", sp, br, rv, cf⟩
        = .ok (.BuildFromSource (.Local (LocalSource.new sp)))) ∧
    (∀ sp br rv cf, TaskType.tryFrom ⟨"build_from_source", "archive", sp, br, rv, cf⟩
        = .ok (.BuildFromSource (.Archive (ArchiveSource.new sp)))) ∧
    (∀ sp br rv cf, TaskType.tryFrom ⟨"install_from_prebuilt", "local", sp, br, rv, cf⟩
        = .ok (.InstallFromPrebuilt (.Local (LocalSource.new sp)))) ∧
    (∀ sp br rv cf, TaskType.tryFrom ⟨"install_from_prebuilt", "archive", sp, br, rv, cf⟩
        = .ok (.InstallFromPrebuilt (.Archive (ArchiveSource.new sp)))) ∧
    (∀ sp br rv cf, TaskType.tryFrom ⟨"install_from_prebuilt", "git", sp, br, rv, cf⟩
        = .error { config_file := some cf,
                   error := .TomlError "Unknown source: git" }) ∧
    (∀ d v, TaskType.tryFrom d = .ok v →
      (d.task_type = "build_from_source" ∧
        (d.source = "git" ∨ d.source = "local" ∨ d.source = "archive")) ∨
      (d.task_type = "install_from_prebuilt" ∧
        (d.source = "local" ∨ d.source = "archive"))) := by
  refine ⟨fun sp br rv cf => rfl, fun sp br rv cf => rfl, fun sp br rv cf => rfl,
    fun sp br rv cf => rfl, fun sp br rv cf => rfl, fun sp br rv cf => rfl, ?_⟩
  intro d v h
  unfold TaskType.tryFrom at h
  rcases hk : DADKUserConfigKey.tryFrom d.task_type with ek | k
  · rw [hk] at h
    simp at h
  · rw [hk] at h
    rcases hs : DADKUserConfigKey.tryFrom d.source with es | k2
    · rw [hs] at h
      simp at h
    · rw [hs] at h
      rw [key_ok_iff] at hk hs
      cases k <;> cases k2 <;>
        simp only [DADKUserConfigKey.toStr] at hk hs <;>
        first
          | exact Or.inl ⟨hk, Or.inl hs⟩
          | exact Or.inl ⟨hk, Or.inr (Or.inl hs)⟩
          | exact Or.inl ⟨hk, Or.inr (Or.inr hs)⟩
          | exact Or.inr ⟨hk, Or.inl hs⟩
          | exact Or.inr ⟨hk, Or.inr hs⟩
          | simp at h

/-- C1 witness: the completeness direction applied at a concrete raw
record of the git crossing. -/
theorem claim_C1_witness :
    (⟨"build_from_source", "git", "p", some "main", none, "cfg.toml"⟩ :
        DADKUserTaskType).task_type = "build_from_source" ∧
    ((⟨"build_from_source", "git", "p", some "main", none, "cfg.toml"⟩ :
        DADKUserTaskType).source = "git" ∨
      (⟨"build_from_source", "git", "p", some "main", none, "cfg.toml"⟩ :
        DADKUserTaskType).source = "local" ∨
      (⟨"build_from_source", "git", "p", some "main", none, "cfg.toml"⟩ :
        DADKUserTaskType).source = "archive") := by
  have h := claim_C1.2.2.2.2.2.2
    ⟨"build_from_source", "git", "p", some "main", none, "cfg.toml"⟩
    (.BuildFromSource (.Git (GitSource.new "p" (some "main") none)))
    (claim_C1.1 "p" (some "main") none "cfg.toml")
  rcases h with h | h
  · exact h
  · exact absurd h.1 (by decide)

end Dadk
